import Mathlib

/-!
Verification of the Mini Seller Console (a React lead-management front-end)
against its specification.  The TypeScript components are shallowly embedded:
React `useState` cells become fields of explicit state records, event handlers
become pure state-transition functions, and the single `Math.random()` draw of
the convert action is passed in as an explicit rational in `[0,1)`.
TypeScript union string types are erased at runtime, so the enumerations
(`LeadStatus`, sort keys, ...) are modelled as plain strings.
-/

namespace MiniSeller

/-- The `Lead` record of `types.tsx`.  `status` holds one of `"New"`,
`"Contacted"`, `"Qualified"` at runtime. -/
structure Lead where
  id : Int
  name : String
  company : String
  email : String
  source : String
  score : Int
  status : String
deriving DecidableEq, Repr

/-- The `Opportunity` record of `types.tsx` (`amount` is optional there). -/
structure Opportunity where
  id : Int
  name : String
  stage : String
  amount : Option Int
  accountName : String
  leadId : Int
deriving DecidableEq, Repr

/-- The state cells owned by the `App` component: the two collections, the
currently selected lead (the detail panel is open iff this is `some`), and
the active tab. -/
structure AppState where
  leads : List Lead
  opportunities : List Opportunity
  selectedLead : Option Lead
  activeTab : String
deriving DecidableEq, Repr

/-- The collection rewrite performed by `handleLeadUpdate` in `App.tsx`:
`prevLeads.map(lead => lead.id === updatedLead.id ? updatedLead : lead)`. -/
def updateLeadList (updatedLead : Lead) (leads : List Lead) : List Lead :=
  leads.map fun lead => if lead.id = updatedLead.id then updatedLead else lead

/-- `handleLeadUpdate` in `App.tsx`: rewrites the lead collection and then
unconditionally runs `setSelectedLead(updatedLead)`. -/
def handleLeadUpdate (updatedLead : Lead) (s : AppState) : AppState :=
  { s with
    leads := updateLeadList updatedLead s.leads
    selectedLead := some updatedLead }

/-- The amount computation of `handleConvertToOpportunity`:
`Math.floor(Math.random() * 100000) + 10000`, with the draw of
`Math.random()` (a value in `[0,1)`) passed in explicitly. -/
def opportunityAmount (r : ℚ) : Int :=
  ⌊r * 100000⌋ + 10000

/-- `handleConvertToOpportunity` in `App.tsx`: builds the new opportunity,
appends it, forces the lead's status to `"Qualified"` through
`handleLeadUpdate`, clears the selection, and switches to the
opportunities tab. -/
def handleConvertToOpportunity (lead : Lead) (r : ℚ) (s : AppState) : AppState :=
  let newOpportunity : Opportunity :=
    { id := (s.opportunities.length : Int) + 1
      name := lead.name
      stage := "Prospecting"
      amount := some (opportunityAmount r)
      accountName := lead.company
      leadId := lead.id }
  let s1 := { s with opportunities := s.opportunities ++ [newOpportunity] }
  let updatedLead := { lead with status := "Qualified" }
  let s2 := handleLeadUpdate updatedLead s1
  { s2 with selectedLead := none, activeTab := "opps" }

/-- `handleClosePanel` in `App.tsx`. -/
def handleClosePanel (s : AppState) : AppState :=
  { s with selectedLead := none }

/-- JavaScript's `String.prototype.includes`, on lists of characters:
`needle` occurs contiguously in the haystack. -/
def listIncludes (needle : List Char) : List Char → Bool
  | [] => needle.isEmpty
  | c :: rest => needle.isPrefixOf (c :: rest) || listIncludes needle rest

/-- `s.toLowerCase()`, viewed as its character sequence:
`String.toLowerCase` lowercases character-wise. -/
def strLower (s : String) : List Char :=
  s.toList.map Char.toLower

/-- `hay.toLowerCase().includes(needle.toLowerCase())` for strings. -/
def strIncludes (hay needle : String) : Bool :=
  listIncludes (strLower needle) (strLower hay)

/-- The filter callback inside `filteredAndSortedLeads` in `LeadsList.tsx`. -/
def leadMatches (searchTerm statusFilter : String) (lead : Lead) : Bool :=
  let matchesSearch :=
    strIncludes lead.name searchTerm ||
    strIncludes lead.company searchTerm
  let matchesStatus := statusFilter == "All" || lead.status == statusFilter
  matchesSearch && matchesStatus

/-- The filter stage of `filteredAndSortedLeads`. -/
def filterLeads (searchTerm statusFilter : String) (leads : List Lead) : List Lead :=
  leads.filter (leadMatches searchTerm statusFilter)

/-- The shared tail of the sort comparator in `LeadsList.tsx`:
`if (aValue < bValue) return sortOrder === 'asc' ? -1 : 1; ...`. -/
def compareValues {α : Type} [LT α] [forall x y : α, Decidable (x < y)]
    (sortOrder : String) (x y : α) : Int :=
  if x < y then (if sortOrder == "asc" then -1 else 1)
  else if y < x then (if sortOrder == "asc" then 1 else -1)
  else 0

/-- The sort comparator of `filteredAndSortedLeads`, including its
`switch (sortBy)` dispatch (the `default` branch returns 0). -/
def compareLead (sortBy sortOrder : String) (a b : Lead) : Int :=
  if sortBy == "score" then compareValues sortOrder a.score b.score
  else if sortBy == "name" then compareValues sortOrder (strLower a.name) (strLower b.name)
  else if sortBy == "company" then compareValues sortOrder (strLower a.company) (strLower b.company)
  else 0

/-- `filteredAndSortedLeads` in `LeadsList.tsx`: filter, then
`filtered.sort(comparator)`.  JavaScript's `Array.prototype.sort` is stable,
modelled by the stable `List.mergeSort` ordered by nonpositive comparator
results. -/
def filteredAndSortedLeads (searchTerm statusFilter sortBy sortOrder : String)
    (leads : List Lead) : List Lead :=
  (filterLeads searchTerm statusFilter leads).mergeSort
    fun a b => decide (compareLead sortBy sortOrder a b ≤ 0)

/-- `Math.ceil(filteredAndSortedLeads.length / pageSize)`. -/
def totalPages (l : List Lead) (pageSize : Nat) : Nat :=
  (l.length + pageSize - 1) / pageSize

/-- `filteredAndSortedLeads.slice(startIndex, endIndex)` with
`startIndex = (currentPage - 1) * pageSize`, `endIndex = startIndex + pageSize`. -/
def paginatedLeads (l : List Lead) (currentPage pageSize : Nat) : List Lead :=
  (l.drop ((currentPage - 1) * pageSize)).take pageSize

/-- The slice of `localStorage` used by `LeadsList.tsx`: one optional string
per fixed key (`leads-search`, `leads-status-filter`, `leads-sort-by`,
`leads-sort-order`, `leads-page-size`). -/
structure Store where
  leadsSearch : Option String
  leadsStatusFilter : Option String
  leadsSortBy : Option String
  leadsSortOrder : Option String
  leadsPageSize : Option String
deriving DecidableEq, Repr

/-- The `useState` cells of `LeadsList.tsx`. -/
structure LeadsViewState where
  searchTerm : String
  statusFilter : String
  sortBy : String
  sortOrder : String
  currentPage : Nat
  pageSize : Nat
deriving DecidableEq, Repr

/-- The initial values of the `useState` cells of `LeadsList.tsx`. -/
def initialViewState : LeadsViewState :=
  { searchTerm := ""
    statusFilter := "All"
    sortBy := "score"
    sortOrder := "desc"
    currentPage := 1
    pageSize := 10 }

/-- The status strings accepted when restoring `leads-status-filter`. -/
def validStatusFilters : List String := ["New", "Contacted", "Qualified", "All"]

/-- The sort keys accepted when restoring `leads-sort-by`. -/
def validSortKeys : List String := ["score", "name", "company"]

/-- The directions accepted when restoring `leads-sort-order`. -/
def validSortOrders : List String := ["asc", "desc"]

/-- The page-size strings accepted when restoring `leads-page-size`. -/
def validPageSizeStrings : List String := ["5", "10", "20", "50"]

/-- `if (savedSearch) setSearchTerm(savedSearch)`: a JavaScript string is
truthy iff it is nonempty. -/
def loadSearch (store : Store) (current : String) : String :=
  match store.leadsSearch with
  | some s => if s ≠ "" then s else current
  | none => current

/-- `if (savedStatus && [...].includes(savedStatus)) setStatusFilter(...)`. -/
def loadStatus (store : Store) (current : String) : String :=
  match store.leadsStatusFilter with
  | some s => if s ≠ "" ∧ s ∈ validStatusFilters then s else current
  | none => current

/-- `if (savedSortBy && [...].includes(savedSortBy)) setSortBy(...)`. -/
def loadSortBy (store : Store) (current : String) : String :=
  match store.leadsSortBy with
  | some s => if s ≠ "" ∧ s ∈ validSortKeys then s else current
  | none => current

/-- `if (savedSortOrder && [...].includes(savedSortOrder)) setSortOrder(...)`. -/
def loadSortOrder (store : Store) (current : String) : String :=
  match store.leadsSortOrder with
  | some s => if s ≠ "" ∧ s ∈ validSortOrders then s else current
  | none => current

/-- JavaScript's `parseInt` restricted to the decimal-digit strings it is
applied to here. -/
def parseNat (s : String) : Nat :=
  s.toList.foldl (fun n c => n * 10 + (c.toNat - '0'.toNat)) 0

/-- `if (savedPageSize && [...].includes(savedPageSize))
setPageSize(parseInt(savedPageSize))`. -/
def loadPageSize (store : Store) (current : Nat) : Nat :=
  match store.leadsPageSize with
  | some s => if s ≠ "" ∧ s ∈ validPageSizeStrings then parseNat s else current
  | none => current

/-- The load-on-mount block of `LeadsList.tsx`: reads the five keys and
applies the five guarded setters (each setter writes its own state cell). -/
def loadFilters (store : Store) (vs : LeadsViewState) : LeadsViewState :=
  { vs with
    searchTerm := loadSearch store vs.searchTerm
    statusFilter := loadStatus store vs.statusFilter
    sortBy := loadSortBy store vs.sortBy
    sortOrder := loadSortOrder store vs.sortOrder
    pageSize := loadPageSize store vs.pageSize }

/-- `saveFilters` in `LeadsList.tsx`: always writes the first four keys; the
page size is an optional parameter and is written only when passed and
truthy (nonzero). -/
def saveFilters (store : Store) (search status sortKey order : String)
    (pageSize : Option Nat) : Store :=
  let store :=
    { store with
      leadsSearch := some search
      leadsStatusFilter := some status
      leadsSortBy := some sortKey
      leadsSortOrder := some order }
  match pageSize with
  | some v => if v ≠ 0 then { store with leadsPageSize := some (toString v) } else store
  | none => store

/-- `handleSearchChange` in `LeadsList.tsx`, together with the
`useEffect` that resets `currentPage` to 1 when `searchTerm` changes
(both run in the same observable step). -/
def handleSearchChange (value : String) (vs : LeadsViewState) (store : Store) :
    LeadsViewState × Store :=
  ({ vs with searchTerm := value, currentPage := 1 },
   saveFilters store value vs.statusFilter vs.sortBy vs.sortOrder none)

/-- `handleStatusFilterChange`, with the same page-reset effect. -/
def handleStatusFilterChange (value : String) (vs : LeadsViewState) (store : Store) :
    LeadsViewState × Store :=
  ({ vs with statusFilter := value, currentPage := 1 },
   saveFilters store vs.searchTerm value vs.sortBy vs.sortOrder none)

/-- `handleSortChange`, with the same page-reset effect: toggling the active
key flips the direction, a new key starts descending. -/
def handleSortChange (field : String) (vs : LeadsViewState) (store : Store) :
    LeadsViewState × Store :=
  let newOrder := if vs.sortBy == field && vs.sortOrder == "desc" then "asc" else "desc"
  ({ vs with sortBy := field, sortOrder := newOrder, currentPage := 1 },
   saveFilters store vs.searchTerm vs.statusFilter field newOrder none)

/-- `handlePageSizeChange` in `LeadsList.tsx`: sets the size, explicitly
resets the page to 1, and persists all five preferences. -/
def handlePageSizeChange (value : Nat) (vs : LeadsViewState) (store : Store) :
    LeadsViewState × Store :=
  ({ vs with pageSize := value, currentPage := 1 },
   saveFilters store vs.searchTerm vs.statusFilter vs.sortBy vs.sortOrder (some value))

/-- The character class `[^\s@]` of the email regular expression in
`LeadDetailPanel.tsx`. -/
def emailChar (c : Char) : Bool :=
  !c.isWhitespace && c != '@'

/-- `validateEmail` in `LeadDetailPanel.tsx`, i.e. a matcher for
`/^[^\s@]+@[^\s@]+\.[^\s@]+$/`: a nonempty `[^\s@]+` block, an `@`, and a
remainder of `[^\s@]` characters containing a `.` that is neither its first
nor its last character. -/
def validateEmail (email : String) : Bool :=
  let cs := email.toList
  let localPart := cs.takeWhile fun c => c != '@'
  let rest := cs.drop (localPart.length + 1)
  !localPart.isEmpty && decide (localPart.length < cs.length) &&
    localPart.all emailChar && rest.all emailChar &&
    rest.tail.dropLast.contains '.'

/-- The language of the regular expression `/^[^\s@]+@[^\s@]+\.[^\s@]+$/`,
stated declaratively as the specification describes it: one-or-more
non-whitespace-non-`@` characters, `@`, one-or-more such characters, `.`,
one-or-more such characters. -/
def matchesEmailPattern (email : String) : Prop :=
  ∃ a b c : List Char,
    email.toList = a ++ '@' :: (b ++ '.' :: c) ∧
    a ≠ [] ∧ b ≠ [] ∧ c ≠ [] ∧
    a.all emailChar = true ∧ b.all emailChar = true ∧ c.all emailChar = true

/-- The `useState` cells of `LeadDetailPanel.tsx` relevant to saving:
editing flag, edit buffer, and the `errors.email` field. -/
structure PanelState where
  isEditing : Bool
  editedLead : Lead
  errors : Option String
deriving DecidableEq, Repr

/-- `handleSave` in `LeadDetailPanel.tsx`.  The simulated transport failure
(`Math.random() < 0.1`) is passed in as the explicit flag `fail`.  Returns
the next panel state together with the argument of the `onUpdate` callback
(`none` when `onUpdate` is not invoked). -/
def handleSave (ps : PanelState) (fail : Bool) : PanelState × Option Lead :=
  if validateEmail ps.editedLead.email = false then
    ({ ps with errors := some "Please enter a valid email address" }, none)
  else if fail then
    ({ ps with errors := some "Failed to save changes. Please try again." }, none)
  else
    ({ ps with isEditing := false, errors := none }, some ps.editedLead)

/-- Sample lead used by concrete witnesses and counterexamples. -/
def leadA : Lead :=
  { id := 1, name := "Alice Johnson", company := "Acme Corp"
    email := "alice@acme.com", source := "web", score := 92, status := "New" }

/-- A second sample lead, with a different id. -/
def leadB : Lead :=
  { id := 2, name := "Bob Stone", company := "Globex"
    email := "bob@globex.com", source := "referral", score := 75, status := "Contacted" }

/-- Sample application state holding the two sample leads, with `leadA`
selected. -/
def sampleState : AppState :=
  { leads := [leadA, leadB]
    opportunities := []
    selectedLead := some leadA
    activeTab := "leads" }

/-- A panel in Editing state whose edit buffer carries the invalid email
`"not-an-email"`. -/
def panelEditing : PanelState :=
  { isEditing := true
    editedLead := { leadA with email := "not-an-email" }
    errors := none }

/-- The inclusion condition exactly as the specification words it: the search
text is empty OR the name or company contains it as a case-insensitive
substring, AND the status filter is `"All"` OR the status equals it. -/
def specLeadIncluded (s f : String) (lead : Lead) : Prop :=
  (s = "" ∨ strIncludes lead.name s = true ∨ strIncludes lead.company s = true) ∧
  (f = "All" ∨ lead.status = f)

/-- The valid page sizes offered by the page-size selector. -/
def validPageSizes : List Nat := [5, 10, 20, 50]

theorem listIncludes_nil (hay : List Char) : listIncludes [] hay = true := by
  cases hay <;> simp [listIncludes, List.isPrefixOf]

/-- C10: `handlePageSizeChange` always resets the page index to 1 in the same
step in which it records the new page size. -/
theorem pageSizeChange_resets_page (value : Nat) (vs : LeadsViewState) (store : Store) :
    ((handlePageSizeChange value vs store).1).currentPage = 1 ∧
    ((handlePageSizeChange value vs store).1).pageSize = value :=
  ⟨rfl, rfl⟩

/-- C2 counterexample: in `sampleState` the selected lead is `leadA`, yet
updating the distinct lead `leadB` still changes the active selection (to
`leadB`), contradicting "the active selection is unchanged by Update lead"
for a differently selected lead. -/
theorem updateLead_moves_selection_counterexample :
    sampleState.selectedLead = some leadA ∧ leadB.id ≠ leadA.id ∧
    (handleLeadUpdate leadB sampleState).selectedLead ≠ sampleState.selectedLead ∧
    (handleLeadUpdate leadB sampleState).selectedLead = some leadB := by
  refine ⟨rfl, by decide, ?_, rfl⟩
  decide

/-- C2 amended: `handleLeadUpdate` always sets the active selection to the
replacement record, regardless of which lead (if any) was selected. -/
theorem updateLead_always_sets_selection (updatedLead : Lead) (s : AppState) :
    (handleLeadUpdate updatedLead s).selectedLead = some updatedLead :=
  rfl

/-- C6: updating with an id matching no lead leaves the collection unchanged
(a silent no-op); in general the rewrite keeps length and order, replacing
exactly the positions whose id matches. -/
theorem updateLead_noop_or_in_place (u : Lead) (leads : List Lead) :
    ((∀ l ∈ leads, l.id ≠ u.id) → updateLeadList u leads = leads) ∧
    (updateLeadList u leads).length = leads.length ∧
    ∀ i : Nat, (updateLeadList u leads)[i]? =
      (leads[i]?).map fun l => if l.id = u.id then u else l := by
  refine ⟨?_, by simp [updateLeadList], fun i => by simp [updateLeadList]⟩
  intro h
  unfold updateLeadList
  conv_rhs => rw [← List.map_id leads]
  exact List.map_congr_left fun a ha => by simp [h a ha]

theorem updateLead_noop_witness : updateLeadList leadA [leadB] = [leadB] :=
  (updateLead_noop_or_in_place leadA [leadB]).1 (by decide)

/-- C8: the filter stage is idempotent — filtering an already-filtered
collection with the same search text and status filter changes nothing. -/
theorem filterLeads_idempotent (s f : String) (leads : List Lead) :
    filterLeads s f (filterLeads s f leads) = filterLeads s f leads := by
  simp [filterLeads, List.filter_filter]

/-- C9: for every draw `r ∈ [0,1)` the generated amount lies in
`[10000, 110000)`, and every integer in that range is attained by some draw. -/
theorem opportunityAmount_range_onto (r : ℚ) (h0 : 0 ≤ r) (h1 : r < 1) :
    (10000 ≤ opportunityAmount r ∧ opportunityAmount r < 110000) ∧
    ∀ v : Int, 10000 ≤ v → v < 110000 →
      ∃ q : ℚ, (0 ≤ q ∧ q < 1) ∧ opportunityAmount q = v := by
  constructor
  · unfold opportunityAmount
    constructor
    · have hf : (0 : ℤ) ≤ ⌊r * 100000⌋ := Int.floor_nonneg.mpr (by positivity)
      omega
    · have hf : ⌊r * 100000⌋ < 100000 := by
        rw [Int.floor_lt]
        push_cast
        nlinarith
      omega
  · intro v hv1 hv2
    have hq1 : (10000 : ℚ) ≤ (v : ℚ) := by exact_mod_cast hv1
    have hq2 : ((v : ℚ)) < 110000 := by exact_mod_cast hv2
    refine ⟨((v : ℚ) - 10000) / 100000,
      ⟨div_nonneg (by linarith) (by norm_num), by rw [div_lt_one (by norm_num)]; linarith⟩, ?_⟩
    unfold opportunityAmount
    have : ((v : ℚ) - 10000) / 100000 * 100000 = ((v - 10000 : ℤ) : ℚ) := by
      push_cast
      field_simp
    rw [this, Int.floor_intCast]
    omega

theorem opportunityAmount_witness :
    (0 : ℚ) ≤ 1 / 2 ∧ (1 / 2 : ℚ) < 1 ∧
    10000 ≤ opportunityAmount (1 / 2) ∧ opportunityAmount (1 / 2) < 110000 :=
  ⟨by norm_num, by norm_num,
    (opportunityAmount_range_onto (1 / 2) (by norm_num) (by norm_num)).1.1,
    (opportunityAmount_range_onto (1 / 2) (by norm_num) (by norm_num)).1.2⟩

/-- C1: converting a lead in the current collection appends exactly one
opportunity (id = previous count + 1, name and account copied, stage
Prospecting), forces that lead's stored record to status `"Qualified"`, and
clears the active selection — all in the same resulting state. -/
theorem convert_lead_observable (s : AppState) (lead : Lead) (r : ℚ)
    (h : lead ∈ s.leads) :
    (handleConvertToOpportunity lead r s).opportunities =
      s.opportunities ++
        [{ id := (s.opportunities.length : Int) + 1
           name := lead.name
           stage := "Prospecting"
           amount := some (opportunityAmount r)
           accountName := lead.company
           leadId := lead.id }] ∧
    { lead with status := "Qualified" } ∈ (handleConvertToOpportunity lead r s).leads ∧
    (∀ l ∈ (handleConvertToOpportunity lead r s).leads,
      l.id = lead.id → l.status = "Qualified") ∧
    (handleConvertToOpportunity lead r s).selectedLead = none := by
  have hleads : (handleConvertToOpportunity lead r s).leads
      = updateLeadList { lead with status := "Qualified" } s.leads := rfl
  refine ⟨rfl, ?_, ?_, rfl⟩
  · rw [hleads]
    unfold updateLeadList
    have hm := List.mem_map_of_mem
      (fun l : Lead => if l.id = ({ lead with status := "Qualified" } : Lead).id
        then { lead with status := "Qualified" } else l) h
    simpa using hm
  · intro l hl hid
    rw [hleads] at hl
    unfold updateLeadList at hl
    obtain ⟨a, ha, hEq⟩ := List.mem_map.mp hl
    by_cases hc : a.id = ({ lead with status := "Qualified" } : Lead).id
    · rw [if_pos hc] at hEq
      rw [← hEq]
    · rw [if_neg hc] at hEq
      subst hEq
      exact absurd hid hc

/-- C3: a lead from the collection appears in the filtered (and sorted)
projection iff the specification's inclusion condition holds, and with empty
search text and filter `"All"` every lead is included. -/
theorem filtered_membership (s f sb so : String) (leads : List Lead) (l : Lead)
    (hl : l ∈ leads) :
    (l ∈ filteredAndSortedLeads s f sb so leads ↔ specLeadIncluded s f l) ∧
    ∀ x ∈ leads, x ∈ filteredAndSortedLeads "" "All" sb so leads := by
  constructor
  · unfold filteredAndSortedLeads filterLeads
    rw [List.mem_mergeSort, List.mem_filter]
    simp only [leadMatches, specLeadIncluded, Bool.and_eq_true, Bool.or_eq_true, beq_iff_eq]
    constructor
    · rintro ⟨-, hsearch, hstatus⟩
      exact ⟨Or.inr hsearch, hstatus⟩
    · rintro ⟨hsearch, hstatus⟩
      refine ⟨hl, ?_, hstatus⟩
      rcases hsearch with hs | hs
      · subst hs
        left
        simpa [strIncludes, strLower] using listIncludes_nil (strLower l.name)
      · exact hs
  · intro x hx
    unfold filteredAndSortedLeads filterLeads
    rw [List.mem_mergeSort, List.mem_filter]
    refine ⟨hx, ?_⟩
    simp [leadMatches, strIncludes, strLower, listIncludes_nil]

theorem filtered_membership_witness :
    (leadA ∈ filteredAndSortedLeads "acme" "New" "score" "desc" [leadA, leadB] ↔
      specLeadIncluded "acme" "New" leadA) ∧
    ∀ x ∈ [leadA, leadB], x ∈ filteredAndSortedLeads "" "All" "score" "desc" [leadA, leadB] :=
  filtered_membership "acme" "New" "score" "desc" [leadA, leadB] leadA (by decide)

theorem pages_flatten (size : Nat) (hsize : 0 < size) :
    ∀ (n : Nat) (l : List Lead), l.length ≤ n →
      ((List.range (totalPages l size)).map fun i => paginatedLeads l (i + 1) size).flatten
        = l := by
  intro n
  induction n with
  | zero =>
    intro l hl
    have hnil : l = [] := List.eq_nil_of_length_eq_zero (Nat.le_zero.mp hl)
    subst hnil
    have h0 : totalPages [] size = 0 := by
      unfold totalPages
      rw [List.length_nil]
      exact Nat.div_eq_of_lt (by omega)
    rw [h0]
    rfl
  | succ n ih =>
    intro l hl
    by_cases hnil : l = []
    · subst hnil
      have h0 : totalPages [] size = 0 := by
        unfold totalPages
        rw [List.length_nil]
        exact Nat.div_eq_of_lt (by omega)
      rw [h0]
      rfl
    · have hpos : 0 < l.length := List.length_pos.mpr hnil
      have h1 : totalPages l size = totalPages (l.drop size) size + 1 := by
        unfold totalPages
        rw [List.length_drop]
        rcases Nat.lt_or_ge l.length size with hm | hm
        · have e0 : l.length - size = 0 := by omega
          rw [e0]
          have e1 : (0 + size - 1) / size = 0 := Nat.div_eq_of_lt (by omega)
          have e2 : (l.length + size - 1) / size = 1 :=
            Nat.div_eq_of_lt_le (by omega) (by omega)
          omega
        · have e : l.length + size - 1 = (l.length - size + size - 1) + size := by omega
          rw [e, Nat.add_div_right _ hsize]
      have h2 : ∀ i : Nat, paginatedLeads l (i + 1 + 1) size
          = paginatedLeads (l.drop size) (i + 1) size := by
        intro i
        unfold paginatedLeads
        rw [List.drop_drop]
        simp only [Nat.add_sub_cancel]
        have e : size + i * size = (i + 1) * size := by ring
        rw [e]
      rw [h1, List.range_succ_eq_map]
      simp only [List.map_cons, List.map_map, List.flatten_cons]
      have hhead : paginatedLeads l (0 + 1) size = l.take size := by
        unfold paginatedLeads
        simp
      have hcomp : ((fun i => paginatedLeads l (i + 1) size) ∘ Nat.succ)
          = fun i => paginatedLeads (l.drop size) (i + 1) size := by
        funext i
        have : Nat.succ i + 1 = i + 1 + 1 := rfl
        simp only [Function.comp, this, h2 i]
      rw [hhead, hcomp, ih (l.drop size) (by rw [List.length_drop]; omega)]
      exact List.take_append_drop size l

/-- C4: for every positive page size, concatenating the page slices for pages
1 through `totalPages` reconstructs the filtered-and-sorted sequence exactly. -/
theorem pagination_reconstructs (s f sb so : String) (leads : List Lead)
    (size : Nat) (hsize : 0 < size) :
    ((List.range (totalPages (filteredAndSortedLeads s f sb so leads) size)).map
      fun i => paginatedLeads (filteredAndSortedLeads s f sb so leads) (i + 1) size).flatten
      = filteredAndSortedLeads s f sb so leads :=
  pages_flatten size hsize _ _ le_rfl

theorem pagination_reconstructs_witness :
    ((List.range (totalPages (filteredAndSortedLeads "" "All" "score" "desc" [leadA, leadB]) 1)).map
      fun i => paginatedLeads (filteredAndSortedLeads "" "All" "score" "desc" [leadA, leadB]) (i + 1) 1).flatten
      = filteredAndSortedLeads "" "All" "score" "desc" [leadA, leadB] :=
  pagination_reconstructs "" "All" "score" "desc" [leadA, leadB] 1 (by norm_num)

theorem convert_lead_witness :
    (handleConvertToOpportunity leadA (1 / 2) sampleState).opportunities =
      [{ id := 1
         name := leadA.name
         stage := "Prospecting"
         amount := some (opportunityAmount (1 / 2))
         accountName := leadA.company
         leadId := leadA.id }] ∧
    { leadA with status := "Qualified" } ∈
      (handleConvertToOpportunity leadA (1 / 2) sampleState).leads ∧
    (handleConvertToOpportunity leadA (1 / 2) sampleState).selectedLead = none := by
  have h := convert_lead_observable sampleState leadA (1 / 2) (by decide)
  exact ⟨h.1, h.2.1, h.2.2.2⟩

theorem takeWhile_all_append (p : Char → Bool) :
    ∀ (a : List Char) (c : Char) (rest : List Char), a.all p = true → p c = false →
      (a ++ c :: rest).takeWhile p = a
  | [], c, rest, _, hc => by
    simp [List.takeWhile_cons, hc]
  | x :: xs, c, rest, ha, hc => by
    rw [List.all_cons, Bool.and_eq_true] at ha
    rw [List.cons_append, List.takeWhile_cons_of_pos ha.1,
      takeWhile_all_append p xs c rest ha.2 hc]

theorem takeWhile_short_split (p : Char → Bool) :
    ∀ cs : List Char, (cs.takeWhile p).length < cs.length →
      ∃ c, p c = false ∧ cs = cs.takeWhile p ++ c :: cs.drop ((cs.takeWhile p).length + 1)
  | [], h => absurd h (by simp)
  | x :: xs, h => by
    by_cases hx : p x = true
    · rw [List.takeWhile_cons_of_pos hx] at h ⊢
      simp only [List.length_cons] at h
      have h' : (xs.takeWhile p).length < xs.length := by omega
      obtain ⟨c, hc, hcs⟩ := takeWhile_short_split p xs h'
      refine ⟨c, hc, ?_⟩
      simp only [List.length_cons, List.cons_append, List.drop_succ_cons]
      exact congrArg (x :: ·) hcs
    · rw [Bool.not_eq_true] at hx
      refine ⟨x, hx, ?_⟩
      rw [List.takeWhile_cons, hx]
      simp

theorem contains_dot_tail_dropLast (l : List Char) :
    l.tail.dropLast.contains '.' = true ↔ ∃ b c, l = b ++ '.' :: c ∧ b ≠ [] ∧ c ≠ [] := by
  constructor
  · intro h
    have hm : '.' ∈ l.tail.dropLast := by
      simpa [List.contains_eq_any_beq, List.any_eq_true, beq_iff_eq, eq_comm] using h
    obtain ⟨s, t, hst⟩ := List.append_of_mem hm
    cases l with
    | nil => simp at hst
    | cons x xs =>
      rw [List.tail_cons] at hst
      have hxs : xs ≠ [] := by
        intro h0
        subst h0
        simp at hst
      have hx2 : xs = (s ++ '.' :: t) ++ [xs.getLast hxs] := by
        conv_lhs => rw [← List.dropLast_concat_getLast hxs]
        rw [hst]
      refine ⟨x :: s, t ++ [xs.getLast hxs], ?_, by simp, by simp⟩
      calc x :: xs = x :: ((s ++ '.' :: t) ++ [xs.getLast hxs]) := by rw [← hx2]
        _ = (x :: s) ++ '.' :: (t ++ [xs.getLast hxs]) := by simp
  · rintro ⟨b, c, rfl, hb, hc⟩
    cases b with
    | nil => exact absurd rfl hb
    | cons x bs =>
      cases c with
      | nil => exact absurd rfl hc
      | cons y cs =>
        rw [List.cons_append, List.tail_cons, List.dropLast_append_cons]
        have hm : ('.' : Char) ∈ bs ++ ('.' :: y :: cs).dropLast := by
          rw [List.dropLast_cons₂]
          exact List.mem_append_cons_self
        simp only [List.contains_eq_any_beq, List.any_eq_true, beq_iff_eq]
        exact ⟨'.', hm, rfl⟩

/-- The executable matcher `validateEmail` recognises exactly the language of
the regular expression `/^[^\s@]+@[^\s@]+\.[^\s@]+$/`. -/
theorem validateEmail_iff (email : String) :
    validateEmail email = true ↔ matchesEmailPattern email := by
  unfold validateEmail matchesEmailPattern
  constructor
  · intro h
    simp only [Bool.and_eq_true, decide_eq_true_eq, List.isEmpty_eq_false,
      Bool.not_eq_true', ne_eq] at h
    obtain ⟨⟨⟨⟨h1, h2⟩, h3⟩, h4⟩, h5⟩ := h
    obtain ⟨c0, hc0, hsplit⟩ := takeWhile_short_split (fun c => c != '@') email.toList h2
    have hat : c0 = '@' := by simpa using hc0
    subst hat
    obtain ⟨b, c, hrest, hb, hc⟩ := (contains_dot_tail_dropLast _).mp h5
    rw [hrest] at h4 hsplit
    simp only [List.all_append, List.all_cons, Bool.and_eq_true] at h4
    exact ⟨_, b, c, hsplit, h1, hb, hc, h3, h4.1, h4.2.2⟩
  · rintro ⟨a, b, c, hsplit, ha, hb, hc, hAa, hAb, hAc⟩
    have haAt : a.all (fun x => x != '@') = true := by
      rw [List.all_eq_true] at hAa ⊢
      intro x hx
      have := hAa x hx
      simp only [emailChar, Bool.and_eq_true] at this
      exact this.2
    have hTW : email.toList.takeWhile (fun c => c != '@') = a := by
      rw [hsplit]
      exact takeWhile_all_append _ a '@' _ haAt (by simp)
    have hdrop : email.toList.drop (a.length + 1) = b ++ '.' :: c := by
      rw [hsplit, show a ++ '@' :: (b ++ '.' :: c) = (a ++ ['@']) ++ (b ++ '.' :: c) by simp]
      exact List.drop_left' (by simp)
    simp only [hTW, hdrop]
    simp only [Bool.and_eq_true, decide_eq_true_eq, List.isEmpty_eq_false,
      Bool.not_eq_true', ne_eq]
    refine ⟨⟨⟨⟨ha, ?_⟩, hAa⟩, ?_⟩, ?_⟩
    · rw [hsplit]
      simp only [List.length_append, List.length_cons]
      omega
    · simp only [List.all_append, List.all_cons, Bool.and_eq_true]
      exact ⟨hAb, by decide, hAc⟩
    · exact (contains_dot_tail_dropLast _).mpr ⟨b, c, rfl, hb, hc⟩

/-- C5: with the panel in Editing state, Save is rejected with the inline
error `"Please enter a valid email address"`, without invoking Update lead
and staying in Editing state, exactly when the edit buffer's email does not
match the pattern `[^\s@]+@[^\s@]+\.[^\s@]+`. -/
theorem save_rejected_iff_invalid_email (ps : PanelState) (fail : Bool)
    (he : ps.isEditing = true) :
    ((handleSave ps fail).1.errors = some "Please enter a valid email address" ∧
      (handleSave ps fail).2 = none ∧ (handleSave ps fail).1.isEditing = true) ↔
    ¬ matchesEmailPattern ps.editedLead.email := by
  unfold handleSave
  by_cases hv : validateEmail ps.editedLead.email = false
  · rw [if_pos hv]
    constructor
    · intro _ hp
      rw [(validateEmail_iff _).mpr hp] at hv
      exact absurd hv (by simp)
    · intro _
      exact ⟨rfl, rfl, he⟩
  · rw [if_neg hv]
    have ht : validateEmail ps.editedLead.email = true := by
      revert hv
      cases validateEmail ps.editedLead.email <;> simp
    have hp : matchesEmailPattern ps.editedLead.email := (validateEmail_iff _).mp ht
    constructor
    · intro hcontra
      exfalso
      cases fail <;> simp at hcontra
    · intro hcontra
      exact absurd hp hcontra

theorem save_rejected_witness :
    (handleSave panelEditing false).1.errors = some "Please enter a valid email address" ∧
    (handleSave panelEditing false).2 = none ∧
    (handleSave panelEditing false).1.isEditing = true :=
  (save_rejected_iff_invalid_email panelEditing false rfl).mpr
    (fun hp => by
      have := (validateEmail_iff "not-an-email").mpr hp
      exact absurd this (by decide))

/-- C7: a preference written through its view change handler is restored
identically by re-initialisation (`loadFilters` over the default view
state), and a stored string outside a preference's valid set falls back to
that preference's default (`""`, `"All"`, `"score"`, `"desc"`, 10). -/
theorem prefs_round_trip_and_fallback
    (vs : LeadsViewState) (store : Store) (sv q keyf : String) (n : Nat)
    (hq : q ∈ validStatusFilters) (hk : keyf ∈ validSortKeys) (hn : n ∈ validPageSizes)
    (bads badk bado badn : String)
    (hbs : bads ∉ validStatusFilters) (hbk : badk ∉ validSortKeys)
    (hbo : bado ∉ validSortOrders) (hbn : badn ∉ validPageSizeStrings) :
    (loadFilters (handleSearchChange sv vs store).2 initialViewState).searchTerm = sv ∧
    (loadFilters (handleStatusFilterChange q vs store).2 initialViewState).statusFilter = q ∧
    (loadFilters (handleSortChange keyf vs store).2 initialViewState).sortBy = keyf ∧
    (loadFilters (handleSortChange keyf vs store).2 initialViewState).sortOrder =
      (handleSortChange keyf vs store).1.sortOrder ∧
    (loadFilters (handlePageSizeChange n vs store).2 initialViewState).pageSize = n ∧
    (loadFilters { store with leadsStatusFilter := some bads } initialViewState).statusFilter
      = "All" ∧
    (loadFilters { store with leadsSortBy := some badk } initialViewState).sortBy = "score" ∧
    (loadFilters { store with leadsSortOrder := some bado } initialViewState).sortOrder
      = "desc" ∧
    (loadFilters { store with leadsPageSize := some badn } initialViewState).pageSize = 10 := by
  refine ⟨?_, ?_, ?_, ?_, ?_, ?_, ?_, ?_, ?_⟩
  · by_cases hsv : sv = ""
    · subst hsv
      simp [loadFilters, loadSearch, handleSearchChange, saveFilters, initialViewState]
    · simp [loadFilters, loadSearch, handleSearchChange, saveFilters, hsv]
  · fin_cases hq <;>
      simp [loadFilters, loadStatus, handleStatusFilterChange, saveFilters, validStatusFilters]
  · fin_cases hk <;>
      simp [loadFilters, loadSortBy, handleSortChange, saveFilters, validSortKeys]
  · by_cases hcond : (vs.sortBy == keyf && vs.sortOrder == "desc") = true
    · simp [loadFilters, loadSortOrder, handleSortChange, saveFilters, hcond, validSortOrders]
    · have hcond' : (vs.sortBy == keyf && vs.sortOrder == "desc") = false := by
        revert hcond
        cases vs.sortBy == keyf && vs.sortOrder == "desc" <;> simp
      simp [loadFilters, loadSortOrder, handleSortChange, saveFilters, hcond', validSortOrders]
  · fin_cases hn <;>
      (simp [loadFilters, loadPageSize, handlePageSizeChange, saveFilters,
        validPageSizeStrings, parseNat]) <;> decide
  · simp only [loadFilters, loadStatus]
    rw [if_neg fun h => hbs h.2]
    rfl
  · simp only [loadFilters, loadSortBy]
    rw [if_neg fun h => hbk h.2]
    rfl
  · simp only [loadFilters, loadSortOrder]
    rw [if_neg fun h => hbo h.2]
    rfl
  · simp only [loadFilters, loadPageSize]
    rw [if_neg fun h => hbn h.2]
    rfl

/-- Empty store used by the preference witness. -/
def emptyStore : Store :=
  { leadsSearch := none
    leadsStatusFilter := none
    leadsSortBy := none
    leadsSortOrder := none
    leadsPageSize := none }

theorem prefs_round_trip_witness :
    (loadFilters (handleSearchChange "acme" initialViewState emptyStore).2
        initialViewState).searchTerm = "acme" ∧
    (loadFilters (handleStatusFilterChange "New" initialViewState emptyStore).2
        initialViewState).statusFilter = "New" ∧
    (loadFilters (handleSortChange "name" initialViewState emptyStore).2
        initialViewState).sortBy = "name" ∧
    (loadFilters (handleSortChange "name" initialViewState emptyStore).2
        initialViewState).sortOrder =
      (handleSortChange "name" initialViewState emptyStore).1.sortOrder ∧
    (loadFilters (handlePageSizeChange 20 initialViewState emptyStore).2
        initialViewState).pageSize = 20 ∧
    (loadFilters { emptyStore with leadsStatusFilter := some "Bogus" }
        initialViewState).statusFilter = "All" ∧
    (loadFilters { emptyStore with leadsSortBy := some "email" }
        initialViewState).sortBy = "score" ∧
    (loadFilters { emptyStore with leadsSortOrder := some "down" }
        initialViewState).sortOrder = "desc" ∧
    (loadFilters { emptyStore with leadsPageSize := some "7" }
        initialViewState).pageSize = 10 :=
  prefs_round_trip_and_fallback initialViewState emptyStore "acme" "New" "name" 20
    (by decide) (by decide) (by decide)
    "Bogus" "email" "down" "7"
    (by decide) (by decide) (by decide) (by decide)

end MiniSeller
